import Mathlib

/-!
Shallow embedding of the form-validator library (src/form-validator.ts,
given as src/unnamed/part_001 = part_002) into Lean 4.

Modelling conventions, used throughout:
* JS strings are Lean `String`s; `null`/`undefined` string-valued slots are
  modelled as `""`, which is sound for this code because every use of such a
  slot is through JS `||`, under which `""`, `null` and `undefined` behave
  identically (all falsy).
* JS numbers are modelled as `JSNum`: an exact rational, `NaN`, or a signed
  infinity.  All arithmetic the code performs (`<`, `>`, `%`, `parseFloat`)
  is exact on IEEE doubles whenever the inputs are exact, so the rational
  model is faithful for the comparisons and the `%` check the code makes.
* `RegExp` values stored in rules are modelled as `String → Bool` predicates;
  the one concrete regex in the code (the email regex) is modelled exactly.
-/

/-- The character class of JS `\s` (plus line terminators), as used by
`String.prototype.trim` and skipped by `parseFloat`. -/
def jsIsSpace (c : Char) : Bool :=
  let n := c.toNat
  n = 32 || (9 ≤ n && n ≤ 13) || n = 0xa0 || n = 0x1680 ||
    (0x2000 ≤ n && n ≤ 0x200a) || n = 0x2028 || n = 0x2029 ||
    n = 0x202f || n = 0x205f || n = 0x3000 || n = 0xfeff

/-- JS `String.prototype.trim`. -/
def jsTrim (s : String) : String :=
  String.mk (((s.data.dropWhile jsIsSpace).reverse.dropWhile jsIsSpace).reverse)

/-- JS `a || b` on strings (with `null`/`undefined` encoded as `""`). -/
def jsOr (a b : String) : String :=
  if a = "" then b else a

/-- JS `a || b || c || d` on strings; `||` associates to the left in JS. -/
def jsOr4 (a b c d : String) : String :=
  jsOr (jsOr (jsOr a b) c) d

/-- A JS number: exact rational, NaN, or a signed infinity. -/
inductive JSNum where
  | nan : JSNum
  | inf (pos : Bool) : JSNum
  | fin (q : ℚ) : JSNum
deriving DecidableEq

/-- JS `x < b` for a number `x` and a finite bound `b` (NaN compares false). -/
def jsLtQ (x : JSNum) (b : ℚ) : Bool :=
  match x with
  | .nan => false
  | .inf pos => !pos
  | .fin q => q < b

/-- JS `x > b` for a number `x` and a finite bound `b` (NaN compares false). -/
def jsGtQ (x : JSNum) (b : ℚ) : Bool :=
  match x with
  | .nan => false
  | .inf pos => pos
  | .fin q => q > b

/-- Truncation toward zero on rationals, as used by JS `%`. -/
def jsTrunc (q : ℚ) : ℤ :=
  if 0 ≤ q then Int.floor q else -(Int.floor (-q))

/-- JS `x % s` for a number `x` and a finite step `s`: exact truncated
remainder; NaN when the dividend is NaN/infinite or the divisor is `0`. -/
def jsModNum (x : JSNum) (s : ℚ) : JSNum :=
  match x with
  | .nan => .nan
  | .inf _ => .nan
  | .fin q => if s = 0 then .nan else .fin (q - s * (jsTrunc (q / s) : ℚ))

/-- JS `x !== 0` for a number `x` (NaN and infinities are not `0`). -/
def jsNeqZero (x : JSNum) : Bool :=
  match x with
  | .fin q => q ≠ 0
  | _ => true

/-- JS `isNaN(x)` for an already-numeric `x`. -/
def jsIsNaN (x : JSNum) : Bool :=
  match x with
  | .nan => true
  | _ => false

def jsDigit (c : Char) : Bool :=
  '0' ≤ c && c ≤ '9'

def digitsToNat (cs : List Char) : Nat :=
  cs.foldl (fun a c => a * 10 + (c.toNat - '0'.toNat)) 0

/-- Parse an unsigned decimal literal prefix (`digits`, `digits.digits` or
`.digits`), returning its exact value and the unconsumed suffix. -/
def parseUnsignedDec (cs : List Char) : Option (ℚ × List Char) :=
  let intPart := cs.takeWhile jsDigit
  let rest1 := cs.dropWhile jsDigit
  match rest1 with
  | '.' :: rest2 =>
    let fracPart := rest2.takeWhile jsDigit
    let rest3 := rest2.dropWhile jsDigit
    if intPart.isEmpty && fracPart.isEmpty then none
    else some ((digitsToNat intPart : ℚ) +
      (digitsToNat fracPart : ℚ) / ((10 : ℚ) ^ fracPart.length), rest3)
  | _ =>
    if intPart.isEmpty then none
    else some ((digitsToNat intPart : ℚ), rest1)

/-- Parse an optional exponent suffix (`e`/`E`, optional sign, digits);
a malformed exponent is ignored, as JS `parseFloat` ignores it. -/
def parseExponent (cs : List Char) : ℤ :=
  match cs with
  | 'e' :: t => parseExponentTail t
  | 'E' :: t => parseExponentTail t
  | _ => 0
where
  parseExponentTail (t : List Char) : ℤ :=
    let (neg, t2) := match t with
      | '-' :: u => (true, u)
      | '+' :: u => (false, u)
      | _ => (false, t)
    let ds := t2.takeWhile jsDigit
    if ds.isEmpty then 0
    else if neg then -(digitsToNat ds : ℤ) else (digitsToNat ds : ℤ)

/-- Whether `cs` is empty or a complete well-formed exponent suffix. -/
def strictExponentOk (cs : List Char) : Bool :=
  match cs with
  | [] => true
  | 'e' :: t => strictExponentTail t
  | 'E' :: t => strictExponentTail t
  | _ => false
where
  strictExponentTail (t : List Char) : Bool :=
    let t2 := match t with
      | '-' :: u => u
      | '+' :: u => u
      | _ => t
    !t2.isEmpty && t2.all jsDigit

/-- Model of JS `parseFloat`: skip leading whitespace, optional sign, then the
longest valid decimal literal prefix (with optional exponent) or the
`Infinity` literal; NaN when no prefix parses. -/
def jsParseFloat (s : String) : JSNum :=
  let cs1 := s.data.dropWhile jsIsSpace
  let (neg, cs2) := match cs1 with
    | '-' :: t => (true, t)
    | '+' :: t => (false, t)
    | _ => (false, cs1)
  if cs2.take 8 = "Infinity".data then JSNum.inf (!neg)
  else
    match parseUnsignedDec cs2 with
    | none => JSNum.nan
    | some (q, rest) =>
      let v := q * (10 : ℚ) ^ (parseExponent rest)
      JSNum.fin (if neg then -v else v)

/-- Model of `HTMLInputElement.valueAsNumber` for `type="number"`: a strict
full-string parse of a floating-point literal (no whitespace, no `Infinity`,
`-` sign only), NaN otherwise. -/
def valueAsNumber (s : String) : JSNum :=
  let (neg, cs2) := match s.data with
    | '-' :: t => (true, t)
    | _ => (false, s.data)
  match parseUnsignedDec cs2 with
  | none => JSNum.nan
  | some (q, rest) =>
    if strictExponentOk rest then
      let v := q * (10 : ℚ) ^ (parseExponent rest)
      JSNum.fin (if neg then -v else v)
    else JSNum.nan

/-- Rendering of a rule's numeric parameter into a template string
(`${rule.value}`); integral rationals render as plain integers, which is
exact for every numeric literal appearing in this development. -/
def jsRatToString (q : ℚ) : String :=
  if q.den = 1 then toString q.num
  else toString q.num ++ "/" ++ toString q.den

/-- Split a character list at every occurrence of `sep` (the result always
has one more part than there are separators). -/
def splitChar (sep : Char) : List Char → List (List Char)
  | [] => [[]]
  | c :: cs =>
    match splitChar sep cs with
    | [] => [[c]]
    | h :: t => if c = sep then [] :: h :: t else (c :: h) :: t

/-- The email regex of the code, `/^[^\s@]+@[^\s@]+\.[^\s@]+$/`:
the string is `a@m` with `a`, `m` nonempty and free of whitespace and `@`
(hence exactly one `@` overall), and `m` contains a `.` that is neither its
first nor its last character. -/
def emailRegexTest (s : String) : Bool :=
  match splitChar '@' s.data with
  | [a, m] =>
    !a.isEmpty && !m.isEmpty &&
    (a ++ m).all (fun c => !jsIsSpace c) &&
    ((m.drop 1).dropLast.contains '.')
  | _ => false

/-! ## Data model (src/types/types.ts) -/

/-- `ValidityState` from types.ts: the native constraint-violation flags. -/
structure ValidityState where
  valueMissing : Bool := false
  typeMismatch : Bool := false
  patternMismatch : Bool := false
  tooLong : Bool := false
  tooShort : Bool := false
  rangeUnderflow : Bool := false
  rangeOverflow : Bool := false
  stepMismatch : Bool := false
  badInput : Bool := false
  customError : Bool := false
  valid : Bool := true
deriving DecidableEq

/-- The all-valid default `ValidityState` returned by `getValidityState` for
elements without native validity. -/
def defaultValidity : ValidityState := {}

/-- A per-violation-kind message table: `customMessages` on a field, or the
form-level `defaultMessages` option.  An absent entry is `""` (see the
`null`/`undefined`-as-`""` convention). -/
structure NativeMsgs where
  valueMissing : String := ""
  typeMismatch : String := ""
  patternMismatch : String := ""
  tooShort : String := ""
  tooLong : String := ""
  rangeUnderflow : String := ""
  rangeOverflow : String := ""
  stepMismatch : String := ""
  customError : String := ""
deriving DecidableEq

/-- The declared field kind (`fieldType` in types.ts). -/
inductive FType where
  | str : FType
  | num : FType
  | arr : FType
deriving DecidableEq

/-- A rule's `type` tag together with its `value` payload:
`required`/`email` carry none, `min`/`max`/`step` a number, `pattern` a
regex (modelled as a predicate). -/
inductive RType where
  | required : RType
  | rmin (v : ℚ) : RType
  | rmax (v : ℚ) : RType
  | rpattern (test : String → Bool) : RType
  | remail : RType
  | rstep (v : ℚ) : RType

/-- `ValidationRule` from types.ts: type+value, optional message (`""` when
absent), and the field kind recorded at push time. -/
structure VRule where
  rtype : RType
  message : String := ""
  fieldType : FType

/-- A field's extracted value (`string | number | string[]`). -/
inductive JSValue where
  | str (s : String) : JSValue
  | num (n : JSNum) : JSValue
  | arr (l : List String) : JSValue

/-! ## Rule evaluation (validateStringRule / validateNumberRule /
validateArrayRule in form-validator.ts) -/

/-- `validateStringRule(rule, value)`: returns the error message, or `none`
(the code's `null`) when the rule passes or has no string case. -/
def validateStringRule (rule : VRule) (value : String) : Option String :=
  match rule.rtype with
  | .required =>
    if value = "" || jsTrim value = "" then
      some (jsOr rule.message "Поле обязательно для заполнения")
    else none
  | .rmin v =>
    if (value.length : ℚ) < v then
      some (jsOr rule.message ("Минимум " ++ jsRatToString v ++ " символов"))
    else none
  | .rmax v =>
    if (value.length : ℚ) > v then
      some (jsOr rule.message ("Максимум " ++ jsRatToString v ++ " символов"))
    else none
  | .rpattern test =>
    if !test value then
      some (jsOr rule.message "Значение не соответствует шаблону")
    else none
  | .remail =>
    if !emailRegexTest value then
      some (jsOr rule.message "Неверный формат email")
    else none
  | .rstep _ => none

/-- The part of `validateNumberRule` after the string-emptiness early return:
the `isNaN` guard followed by the `switch`.  `strEmptyTrim` is the value of
`typeof value === "string" && value.trim() === ""` at that point (always
`false` on the reachable paths, mirrored for fidelity). -/
def numRuleSwitch (rule : VRule) (numValue : JSNum) (strEmptyTrim : Bool) :
    Option String :=
  if jsIsNaN numValue then some "Значение должно быть числом"
  else
    match rule.rtype with
    | .required =>
      if strEmptyTrim then
        some (jsOr rule.message "Поле обязательно для заполнения")
      else none
    | .rmin v =>
      if jsLtQ numValue v then
        some (jsOr rule.message ("Минимальное значение: " ++ jsRatToString v))
      else none
    | .rmax v =>
      if jsGtQ numValue v then
        some (jsOr rule.message ("Максимальное значение: " ++ jsRatToString v))
      else none
    | .rstep v =>
      if jsNeqZero (jsModNum numValue v) then
        some (jsOr rule.message ("Значение должно быть кратно " ++ jsRatToString v))
      else none
    | _ => none

/-- `validateNumberRule(rule, value)` where `value : number | string`. -/
def validateNumberRule (rule : VRule) (value : String ⊕ JSNum) : Option String :=
  match value with
  | Sum.inl s =>
    if jsTrim s = "" then
      match rule.rtype with
      | .required => some (jsOr rule.message "Поле обязательно для заполнения")
      | _ => none
    else numRuleSwitch rule (jsParseFloat s) false
  | Sum.inr n => numRuleSwitch rule n false

/-- `validateArrayRule(rule, value)`.  The `!value` disjunct of the code's
`required` case is dropped: a JS array is always truthy. -/
def validateArrayRule (rule : VRule) (value : List String) : Option String :=
  match rule.rtype with
  | .required =>
    if value.length = 0 then
      some (jsOr rule.message "Необходимо выбрать хотя бы один вариант")
    else none
  | .rmin v =>
    if (value.length : ℚ) < v then
      some (jsOr rule.message ("Необходимо выбрать минимум " ++ jsRatToString v ++ " вариантов"))
    else none
  | .rmax v =>
    if (value.length : ℚ) > v then
      some (jsOr rule.message ("Можно выбрать максимум " ++ jsRatToString v ++ " вариантов"))
    else none
  | _ => none

/-! ## The per-field evaluation step of validate() -/

/-- The coercion `typeof value === "string" ? value : String(value || "")`
applied before `validateStringRule`. -/
def strCoerce (v : JSValue) : String :=
  match v with
  | .str s => s
  | .num n =>
    match n with
    | .nan => ""
    | .inf pos => if pos then "Infinity" else "-Infinity"
    | .fin q => if q = 0 then "" else jsRatToString q
  | .arr l => String.intercalate "," l

/-- The coercion `typeof value === "number" || typeof value === "string" ?
value : ""` applied before `validateNumberRule`. -/
def numCoerce (v : JSValue) : String ⊕ JSNum :=
  match v with
  | .str s => Sum.inl s
  | .num n => Sum.inr n
  | .arr _ => Sum.inl ""

/-- The coercion `Array.isArray(value) ? value : []` applied before
`validateArrayRule`. -/
def arrCoerce (v : JSValue) : List String :=
  match v with
  | .arr l => l
  | _ => []

/-- One iteration of the custom-rule loop in `validate()`: dispatch on the
field's current declared kind (an undeclared kind evaluates nothing). -/
def evalRule (ft : Option FType) (v : JSValue) (r : VRule) : Option String :=
  match ft with
  | some .str => validateStringRule r (strCoerce v)
  | some .num => validateNumberRule r (numCoerce v)
  | some .arr => validateArrayRule r (arrCoerce v)
  | none => none

/-- The custom-rule loop of `validate()`: walk the rules in declaration
order and stop at the first failure (`break`). -/
def firstRuleError (ft : Option FType) (v : JSValue) : List VRule → Option String
  | [] => none
  | r :: rs =>
    match evalRule ft v r with
    | some m => some m
    | none => firstRuleError ft v rs

/-- The inputs the body of `validate()` reads for one field: the native
validity snapshot, the extracted value, the control's attributes and
`validationMessage`, whether the control is an input/textarea/select, and
the field record's custom messages, declared kind and rules. -/
structure FieldInput where
  validity : ValidityState := {}
  value : JSValue := .str ""
  attrs : List (String × String) := []
  validationMessage : String := ""
  isFormControl : Bool := true
  customMessages : NativeMsgs := {}
  fieldType : Option FType := none
  rules : List VRule := []

/-- `element.getAttribute(k)` with the `null`-as-`""` convention. -/
def getAttr (attrs : List (String × String)) (k : String) : String :=
  (attrs.lookup k).getD ""

/-- The native-constraint branch of `validate()`: the if/else chain over the
violation flags, including the four-stage `||` fallback per kind and the
special `customError` branch.  Returns `""` when `validity.valid` or when no
checked flag is set (e.g. only `badInput`). -/
def nativeErrorMessage (dm : NativeMsgs) (inp : FieldInput) : String :=
  if inp.validity.valid then ""
  else if inp.validity.valueMissing then
    jsOr4 inp.customMessages.valueMissing dm.valueMissing
      (getAttr inp.attrs "data-error-value-missing") "Поле обязательно для заполнения"
  else if inp.validity.typeMismatch then
    jsOr4 inp.customMessages.typeMismatch dm.typeMismatch
      (getAttr inp.attrs "data-error-type-mismatch") "Неверный тип данных"
  else if inp.validity.patternMismatch then
    jsOr4 inp.customMessages.patternMismatch dm.patternMismatch
      (getAttr inp.attrs "data-error-pattern-mismatch") "Значение не соответствует шаблону"
  else if inp.validity.tooShort then
    jsOr4 inp.customMessages.tooShort dm.tooShort
      (getAttr inp.attrs "data-error-too-short") "Слишком мало символов"
  else if inp.validity.tooLong then
    jsOr4 inp.customMessages.tooLong dm.tooLong
      (getAttr inp.attrs "data-error-too-long") "Слишком много символов"
  else if inp.validity.rangeUnderflow then
    jsOr4 inp.customMessages.rangeUnderflow dm.rangeUnderflow
      (getAttr inp.attrs "data-error-range-underflow") "Значение слишком мало"
  else if inp.validity.rangeOverflow then
    jsOr4 inp.customMessages.rangeOverflow dm.rangeOverflow
      (getAttr inp.attrs "data-error-range-overflow") "Значение слишком велико"
  else if inp.validity.stepMismatch then
    jsOr4 inp.customMessages.stepMismatch dm.stepMismatch
      (getAttr inp.attrs "data-error-step-mismatch") "Значение не соответствует шагу"
  else if inp.validity.customError then
    if inp.isFormControl then jsOr inp.validationMessage "Произошла ошибка валидации"
    else "Произошла ошибка валидации"
  else ""

/-- The `fieldErrors` list accumulated for one field: the native message (if
any resolved) followed by the first failing custom rule's message (if any). -/
def fieldErrorsList (dm : NativeMsgs) (inp : FieldInput) : List String :=
  (let em := nativeErrorMessage dm inp
   if em = "" then [] else [em]) ++
  (match firstRuleError inp.fieldType inp.value inp.rules with
   | some m => [m]
   | none => [])

/-- The single error `validate()` reports for one field (`fieldErrors[0]`),
which is also the text written to the field's error container. -/
def fieldReport (dm : NativeMsgs) (inp : FieldInput) : Option String :=
  (fieldErrorsList dm inp).head?

/-- `ValidationError` from types.ts. -/
structure ValidationError where
  message : String
  field : String
deriving DecidableEq

/-- `FormValidationResult` from types.ts. -/
structure FormResult where
  isValid : Bool
  errors : List ValidationError
deriving DecidableEq

/-- `validate()` restricted to its returned result, over the per-field
inputs in registry insertion order. -/
def validateFields (dm : NativeMsgs) (l : List (String × FieldInput)) : FormResult :=
  let errors := l.filterMap fun p => (fieldReport dm p.2).map (⟨·, p.1⟩)
  ⟨errors.length = 0, errors⟩

/-! ## The field registry and the fluent chains -/

/-- `FieldConfig` from types.ts (DOM references are element ids in the DOM
model below; `rules` is `validationRules`). -/
structure FieldConfig where
  name : String := ""
  element : Nat := 0
  label : Option Nat := none
  errorContainer : Option Nat := none
  customMessages : NativeMsgs := {}
  rules : List VRule := []
  fieldType : Option FType := none

/-- The `string()` type selector: re-tags the field's declared kind. -/
def selectString (c : FieldConfig) : FieldConfig :=
  { c with fieldType := some .str }

/-- The `number()` type selector: re-tags the field's declared kind. -/
def selectNumber (c : FieldConfig) : FieldConfig :=
  { c with fieldType := some .num }

/-- The `array()` type selector: re-tags the field's declared kind. -/
def selectArray (c : FieldConfig) : FieldConfig :=
  { c with fieldType := some .arr }

/-- `string().min(length, message?)`: push a string-tagged min rule and
re-derive the string chain. -/
def chainStringMin (v : ℚ) (m : String) (c : FieldConfig) : FieldConfig :=
  { c with fieldType := some .str, rules := c.rules ++ [⟨.rmin v, m, .str⟩] }

def chainStringMax (v : ℚ) (m : String) (c : FieldConfig) : FieldConfig :=
  { c with fieldType := some .str, rules := c.rules ++ [⟨.rmax v, m, .str⟩] }

def chainStringPattern (t : String → Bool) (m : String) (c : FieldConfig) : FieldConfig :=
  { c with fieldType := some .str, rules := c.rules ++ [⟨.rpattern t, m, .str⟩] }

def chainStringEmail (m : String) (c : FieldConfig) : FieldConfig :=
  { c with fieldType := some .str, rules := c.rules ++ [⟨.remail, m, .str⟩] }

def chainStringRequired (m : String) (c : FieldConfig) : FieldConfig :=
  { c with fieldType := some .str, rules := c.rules ++ [⟨.required, m, .str⟩] }

def chainNumberMin (v : ℚ) (m : String) (c : FieldConfig) : FieldConfig :=
  { c with fieldType := some .num, rules := c.rules ++ [⟨.rmin v, m, .num⟩] }

def chainNumberMax (v : ℚ) (m : String) (c : FieldConfig) : FieldConfig :=
  { c with fieldType := some .num, rules := c.rules ++ [⟨.rmax v, m, .num⟩] }

def chainNumberStep (v : ℚ) (m : String) (c : FieldConfig) : FieldConfig :=
  { c with fieldType := some .num, rules := c.rules ++ [⟨.rstep v, m, .num⟩] }

def chainNumberRequired (m : String) (c : FieldConfig) : FieldConfig :=
  { c with fieldType := some .num, rules := c.rules ++ [⟨.required, m, .num⟩] }

def chainArrayMin (v : ℚ) (m : String) (c : FieldConfig) : FieldConfig :=
  { c with fieldType := some .arr, rules := c.rules ++ [⟨.rmin v, m, .arr⟩] }

def chainArrayMax (v : ℚ) (m : String) (c : FieldConfig) : FieldConfig :=
  { c with fieldType := some .arr, rules := c.rules ++ [⟨.rmax v, m, .arr⟩] }

def chainArrayRequired (m : String) (c : FieldConfig) : FieldConfig :=
  { c with fieldType := some .arr, rules := c.rules ++ [⟨.required, m, .arr⟩] }

/-- `createFieldValidator(fieldName)` (reached through `field(fieldName)`;
the `fieldValidators` cache only memoizes successful results and does not
change the throw behaviour): `Except.error` models the thrown `Error`, whose
message embeds the missing field's name. -/
def createFieldValidator (fields : List (String × FieldConfig)) (fieldName : String) :
    Except String Unit :=
  if (fields.lookup fieldName).isSome then Except.ok ()
  else Except.error ("Поле \"" ++ fieldName ++ "\" не найдено в форме")

/-- The `form(formElement, options?)` factory's construction guard: invoking
it without a form container makes `formElement.querySelectorAll` throw a
`TypeError`; with a container it returns the validator (modelled by the
discovered registry, passed through). -/
def formFactory (formElement : Option (List (String × FieldConfig))) :
    Except String (List (String × FieldConfig)) :=
  match formElement with
  | none => Except.error "TypeError: Cannot read properties of undefined (reading 'querySelectorAll')"
  | some fields => Except.ok fields

/-- Assemble the `validate()` inputs for a field from its registry record,
a native validity snapshot and an extracted value (no data-attributes, no
`validationMessage`). -/
def mkInput (validity : ValidityState) (v : JSValue) (c : FieldConfig) : FieldInput :=
  { validity := validity, value := v, attrs := [], validationMessage := "",
    isFormControl := true, customMessages := c.customMessages,
    fieldType := c.fieldType, rules := c.rules }

/-! ## DOM model

`validate()` also mutates the live DOM (error-container `textContent`,
`style.display`/`visibility`, `aria-invalid`).  The DOM is modelled as an
association list of element ids to element data, in document order, with
parent pointers.  Setting `textContent` on an element replaces its children
with a text node, i.e. detaches every current child (the child keeps its own
subtree); `element.form` is the nearest `form` ancestor. -/

/-- Element tag, coarsened to what the code distinguishes. -/
inductive TagK where
  | input : TagK
  | textarea : TagK
  | select : TagK
  | formT : TagK
  | other : TagK
deriving DecidableEq

/-- The data of one DOM element that `validate()` can read or write. -/
structure ElemData where
  tagK : TagK := .other
  itype : String := "text"
  ename : String := ""
  value : String := ""
  checked : Bool := false
  attrs : List (String × String) := []
  validity : ValidityState := {}
  validationMessage : String := ""
  text : String := ""
  styleDisplay : String := ""
  styleVisibility : String := ""
  parent : Option Nat := none

/-- A DOM snapshot: elements (id, data) in document order. -/
structure Dom where
  elems : List (Nat × ElemData)

def lookupElem (d : Dom) (i : Nat) : Option ElemData :=
  d.elems.lookup i

/-- Whether the element is an `HTMLInputElement`/`HTMLTextAreaElement`/
`HTMLSelectElement` (has native validity, `validationMessage`, `value`). -/
def isFormControlTag (t : TagK) : Bool :=
  t = .input || t = .textarea || t = .select

/-- `getValidityState(element)`: the element's flags, or the all-valid
default for elements without native validity. -/
def getValidityState (d : Dom) (i : Nat) : ValidityState :=
  match lookupElem d i with
  | some ed => if isFormControlTag ed.tagK then ed.validity else defaultValidity
  | none => defaultValidity

/-- `element.form`: walk parent pointers to the nearest `form` ancestor
(fuel-bounded by the element count; parent chains in a live DOM are acyclic
and shorter than that). -/
def findFormAux (d : Dom) : Nat → Nat → Option Nat
  | 0, _ => none
  | fuel + 1, i =>
    match (lookupElem d i).bind (·.parent) with
    | none => none
    | some p =>
      match lookupElem d p with
      | some pd => if pd.tagK = .formT then some p else findFormAux d fuel p
      | none => none

def findForm (d : Dom) (i : Nat) : Option Nat :=
  findFormAux d d.elems.length i

/-- Whether element `i` is a strict descendant of `anc`. -/
def isDescendantAux (d : Dom) : Nat → Nat → Nat → Bool
  | 0, _, _ => false
  | fuel + 1, i, anc =>
    match (lookupElem d i).bind (·.parent) with
    | none => false
    | some p => if p = anc then true else isDescendantAux d fuel p anc

def isDescendant (d : Dom) (i anc : Nat) : Bool :=
  isDescendantAux d d.elems.length i anc

/-- `getFieldValue(element)`: checkbox groups to the checked values in
document order, radio groups to the selected value or `""`, `type="number"`
to the empty-string sentinel or `valueAsNumber`, everything else to the
element's string value. -/
def getFieldValue (d : Dom) (i : Nat) : JSValue :=
  match lookupElem d i with
  | none => .str ""
  | some ed =>
    if ed.tagK = TagK.input then
      if ed.itype = "checkbox" then
        match findForm d i with
        | none => .arr []
        | some f =>
          .arr (((d.elems.filter fun p =>
              p.2.tagK = TagK.input && p.2.itype = "checkbox" &&
                p.2.ename = ed.ename && isDescendant d p.1 f).filter
            fun p => p.2.checked).map fun p => jsOr p.2.value "on")
      else if ed.itype = "radio" then
        match findForm d i with
        | none => .str ""
        | some f =>
          match (d.elems.filter fun p =>
              p.2.tagK = TagK.input && p.2.itype = "radio" &&
                p.2.ename = ed.ename && isDescendant d p.1 f &&
                p.2.checked).head? with
          | some sel => .str (jsOr sel.2.value "")
          | none => .str ""
      else if ed.itype = "number" then
        if ed.value = "" then .str ""
        else .num (valueAsNumber ed.value)
      else .str ed.value
    else if ed.tagK = TagK.textarea || ed.tagK = TagK.select then .str ed.value
    else .str ""

/-- Update one element's data in place. -/
def updateElem (d : Dom) (i : Nat) (f : ElemData → ElemData) : Dom :=
  ⟨d.elems.map fun p => if p.1 = i then (p.1, f p.2) else p⟩

/-- Detach `ed` if its parent is `c` (used by the `textContent` setter). -/
def detachFrom (c : Nat) (ed : ElemData) : ElemData :=
  if ed.parent = some c then { ed with parent := none } else ed

/-- `container.textContent = s`: set the text and detach every current child
of the container. -/
def setTextContent (d : Dom) (c : Nat) (s : String) : Dom :=
  let d1 := updateElem d c fun ed => { ed with text := s }
  ⟨d1.elems.map fun p => (p.1, detachFrom c p.2)⟩

def setStyleShown (d : Dom) (c : Nat) : Dom :=
  updateElem d c fun ed => { ed with styleDisplay := "block", styleVisibility := "visible" }

def setStyleHidden (d : Dom) (c : Nat) : Dom :=
  updateElem d c fun ed => { ed with styleDisplay := "block", styleVisibility := "hidden" }

/-- `element.setAttribute(k, v)`. -/
def setAttrList (attrs : List (String × String)) (k v : String) : List (String × String) :=
  if attrs.any (·.1 = k) then attrs.map fun p => if p.1 = k then (k, v) else p
  else attrs ++ [(k, v)]

def setAttrDom (d : Dom) (i : Nat) (k v : String) : Dom :=
  updateElem d i fun ed => { ed with attrs := setAttrList ed.attrs k v }

/-- `element.removeAttribute(k)`. -/
def removeAttrDom (d : Dom) (i : Nat) (k : String) : Dom :=
  updateElem d i fun ed => { ed with attrs := ed.attrs.filter (·.1 ≠ k) }

/-- Assemble the per-field inputs of `validate()` from the DOM and the
field's registry record. -/
def readFieldInput (d : Dom) (cfg : FieldConfig) : FieldInput :=
  let ed := (lookupElem d cfg.element).getD {}
  { validity := getValidityState d cfg.element,
    value := getFieldValue d cfg.element,
    attrs := ed.attrs,
    validationMessage := ed.validationMessage,
    isFormControl := isFormControlTag ed.tagK,
    customMessages := cfg.customMessages,
    fieldType := cfg.fieldType,
    rules := cfg.rules }

/-- The body of `validate()`'s loop for one field: compute the report, then
apply the DOM side effects (error branch: write the message, show the
container, set `aria-invalid`; clear branch: empty the text, hide the
container, remove `aria-invalid`). -/
def errorWrites (d : Dom) (cfg : FieldConfig) (m : String) : Dom :=
  match cfg.errorContainer with
  | some c => setStyleShown (setTextContent d c m) c
  | none => d

def clearWrites (d : Dom) (cfg : FieldConfig) : Dom :=
  match cfg.errorContainer with
  | some c => setStyleHidden (setTextContent d c "") c
  | none => d

def validateFieldDom (dm : NativeMsgs) (d : Dom) (cfg : FieldConfig) :
    Option String × Dom :=
  match fieldReport dm (readFieldInput d cfg) with
  | some m =>
    (some m, setAttrDom (errorWrites d cfg m) cfg.element "aria-invalid" "true")
  | none =>
    (none, removeAttrDom (clearWrites d cfg) cfg.element "aria-invalid")

/-- The loop of `validate()` over the registry, threading the DOM. -/
def validateGo (dm : NativeMsgs) : Dom → List (String × FieldConfig) →
    List ValidationError × Dom
  | d, [] => ([], d)
  | d, (n, cfg) :: rest =>
    ((match (validateFieldDom dm d cfg).1 with
      | some m => [⟨m, n⟩]
      | none => []) ++ (validateGo dm (validateFieldDom dm d cfg).2 rest).1,
     (validateGo dm (validateFieldDom dm d cfg).2 rest).2)

/-- `validate()`: the returned `FormValidationResult` and the mutated DOM. -/
def validate (dm : NativeMsgs) (d : Dom) (reg : List (String × FieldConfig)) :
    FormResult × Dom :=
  (⟨(validateGo dm d reg).1.length = 0, (validateGo dm d reg).1⟩,
   (validateGo dm d reg).2)

/-- The text content of element `i` (for stating container-text properties). -/
def textOf (d : Dom) (i : Nat) : String :=
  match lookupElem d i with
  | some ed => ed.text
  | none => ""

/-! ### Infrastructure for the amended idempotence claim

The only DOM state `validate()` mutates is container text, container style,
and the control's `aria-invalid` attribute; everything it *reads* (tags,
names, values, checked state, parent structure, validity, data-attributes,
validation messages) is untouched — provided no configured error container
has children, since `textContent = s` detaches the container's children.
`stripMut` erases exactly the mutable part; the proof shows the stripped DOM
is invariant under a `validate()` pass and determines every read. -/

/-- Erase the parts of an element `validate()` can mutate. -/
def stripMut (ed : ElemData) : ElemData :=
  { ed with
    text := ""
    styleDisplay := ""
    styleVisibility := ""
    attrs := ed.attrs.filter (fun kv => kv.1 ≠ "aria-invalid") }

/-- The read-relevant projection of a DOM. -/
def strippedDom (d : Dom) : Dom :=
  ⟨d.elems.map fun p => (p.1, stripMut p.2)⟩

/-- Element `c` has no children in `d`. -/
def childlessIn (d : Dom) (c : Nat) : Prop :=
  ∀ p ∈ d.elems, p.2.parent ≠ some c

/-- Every error container configured in the registry is childless in `d`
(true of the conventional sibling alert containers). -/
def containersChildless (d : Dom) (reg : List (String × FieldConfig)) : Prop :=
  ∀ e ∈ reg, ∀ c, e.2.errorContainer = some c → childlessIn d c

/-- The per-element strip, as a pair map. -/
def stripPair (p : Nat × ElemData) : Nat × ElemData :=
  (p.1, stripMut p.2)


/-! ## Specification-side definitions

`nativeMessageSpec` formalizes §4.3/§9 of the specification: an ordered list
of (violation flag, message resolver) pairs scanned in fixed priority order,
each resolver applying the uniform four-stage priority (per-field override →
global default → data-attribute → hardcoded fallback), except `custom-error`
which per §4.3 takes the control's own validation message, else a generic
fallback.  It is compared with the code-side `nativeErrorMessage`. -/

/-- The spec's four-stage message priority for one violation kind. -/
def resolveByPriority (custom global attr fallback : String) : String :=
  jsOr custom (jsOr global (jsOr attr fallback))

/-- The spec's ordered (flag, resolved message) priority list. -/
def nativePriorityList (dm : NativeMsgs) (inp : FieldInput) : List (Bool × String) :=
  [(inp.validity.valueMissing,
    resolveByPriority inp.customMessages.valueMissing dm.valueMissing
      (getAttr inp.attrs "data-error-value-missing") "Поле обязательно для заполнения"),
   (inp.validity.typeMismatch,
    resolveByPriority inp.customMessages.typeMismatch dm.typeMismatch
      (getAttr inp.attrs "data-error-type-mismatch") "Неверный тип данных"),
   (inp.validity.patternMismatch,
    resolveByPriority inp.customMessages.patternMismatch dm.patternMismatch
      (getAttr inp.attrs "data-error-pattern-mismatch") "Значение не соответствует шаблону"),
   (inp.validity.tooShort,
    resolveByPriority inp.customMessages.tooShort dm.tooShort
      (getAttr inp.attrs "data-error-too-short") "Слишком мало символов"),
   (inp.validity.tooLong,
    resolveByPriority inp.customMessages.tooLong dm.tooLong
      (getAttr inp.attrs "data-error-too-long") "Слишком много символов"),
   (inp.validity.rangeUnderflow,
    resolveByPriority inp.customMessages.rangeUnderflow dm.rangeUnderflow
      (getAttr inp.attrs "data-error-range-underflow") "Значение слишком мало"),
   (inp.validity.rangeOverflow,
    resolveByPriority inp.customMessages.rangeOverflow dm.rangeOverflow
      (getAttr inp.attrs "data-error-range-overflow") "Значение слишком велико"),
   (inp.validity.stepMismatch,
    resolveByPriority inp.customMessages.stepMismatch dm.stepMismatch
      (getAttr inp.attrs "data-error-step-mismatch") "Значение не соответствует шагу"),
   (inp.validity.customError,
    if inp.isFormControl then jsOr inp.validationMessage "Произошла ошибка валидации"
    else "Произошла ошибка валидации")]

/-- First-match scan over the priority list. -/
def firstSetFlag : List (Bool × String) → String
  | [] => ""
  | (b, m) :: rest => if b then m else firstSetFlag rest

/-- The spec's native-message selection: nothing when natively valid, else
the first set flag's resolved message. -/
def nativeMessageSpec (dm : NativeMsgs) (inp : FieldInput) : String :=
  if inp.validity.valid then "" else firstSetFlag (nativePriorityList dm inp)

/-! ## Concrete instances used by counterexamples and witnesses -/

/-- A field record built through the public chains:
`field(x).string().min(5)` followed by `field(x).number()` — the min rule
stays in the list tagged `string` while the declared kind is now `number`. -/
def staleCfg : FieldConfig :=
  selectNumber (chainStringMin 5 "" (selectString {}))

/-- A natively-invalid `valueMissing` snapshot. -/
def vmValidity : ValidityState := { valueMissing := true, valid := false }

/-- A natively-invalid `customError` snapshot. -/
def ceValidity : ValidityState := { customError := true, valid := false }

/-- Field input where both the native check (value missing) and a custom
required rule fail, for the precedence claim. -/
def bothFailInput : FieldInput :=
  { validity := vmValidity, value := .str "",
    fieldType := some FType.str, rules := [⟨.required, "CUSTOM", .str⟩] }

/-- Field input whose only native violation is `customError`, with a
per-field `customError` message override configured. -/
def ceOverrideInput : FieldInput :=
  { validity := ceValidity, customMessages := { customError := "OVERRIDE" } }

/-- Field input with an empty string value and a single `email()` rule
(no `required()`). -/
def emptyEmailInput : FieldInput :=
  { value := .str "", fieldType := some FType.str,
    rules := [⟨.remail, "", FType.str⟩] }

/-- DOM where a checked radio control sits inside its own error container
(an ancestor marked `data-error-container`, one of the conventions the
binder's `findErrorContainer` accepts). -/
def aliasDom : Dom := ⟨[
  (0, { tagK := .formT }),
  (1, { tagK := .other, attrs := [("data-error-container", "")], parent := some 0 }),
  (2, { tagK := .input, itype := "radio", ename := "g", value := "male",
        checked := true, parent := some 1 })]⟩

/-- Registry for `aliasDom`: the radio field, string kind, one required
rule, error container = the ancestor div. -/
def aliasReg : List (String × FieldConfig) :=
  [("g", { name := "g", element := 2, errorContainer := some 1,
           fieldType := some FType.str, rules := [⟨.required, "", .str⟩] })]

/-- DOM following the sibling-alert convention: the error container is a
childless sibling of the control. -/
def siblingDom : Dom := ⟨[
  (0, { tagK := .formT }),
  (1, { tagK := .input, itype := "text", ename := "name", value := "",
        parent := some 0 }),
  (2, { tagK := .other, attrs := [("role", "alert")], parent := some 0 })]⟩

/-- Registry for `siblingDom`: one string field with a required rule that
fails on the empty value. -/
def siblingReg : List (String × FieldConfig) :=
  [("name", { name := "name", element := 1, errorContainer := some 2,
              fieldType := some FType.str, rules := [⟨.required, "", .str⟩] })]

/-! ## Helper lemmas -/

theorem jsOr_assoc (a b c : String) : jsOr (jsOr a b) c = jsOr a (jsOr b c) := by
  unfold jsOr
  by_cases ha : a = "" <;> by_cases hb : b = "" <;> simp [ha, hb]

/-! ## C1: stale rules after re-tagging a field's kind -/

/-- C1 (counterexample): the claim says rules added under a previous kind are
never evaluated after re-tagging and contribute no error message.  But
`validate()` never consults `rule.fieldType`: after
`field(x).string().min(5)` then `field(x).number()`, the stale string-tagged
min rule is evaluated by the number-kind evaluator and reports an error for
extracted value `3`. -/
theorem stale_rule_contributes_error :
    staleCfg.fieldType = some FType.num ∧
    staleCfg.rules = [⟨.rmin 5, "", FType.str⟩] ∧
    fieldReport {} (mkInput {} (.num (.fin 3)) staleCfg) =
      some "Минимальное значение: 5" := by
  refine ⟨rfl, rfl, ?_⟩
  decide

/-- C1 (amended): stale rules are not removed and not filtered out; the
rule list is evaluated entirely under the field's *current* declared kind,
and the per-rule `fieldType` tag recorded at push time has no effect on
evaluation (so a stale rule contributes an error exactly when its rule
type, reinterpreted under the current kind, fails on the extracted value;
rule types with no case in the current kind's evaluator are inert). -/
theorem evalRule_ignores_rule_fieldType (ft : Option FType) (v : JSValue)
    (r : VRule) (tag : FType) :
    evalRule ft v { r with fieldType := tag } = evalRule ft v r := by
  cases ft with
  | none => rfl
  | some k => cases k <;> rfl

/-! ## C2: native errors precede custom-rule errors -/

/-- C2 (confirmed): when the native constraint check resolves a message and
some custom rule also fails, the field's single reported error — the head of
`fieldErrors`, which is both the entry pushed to the returned error list and
the text written to the error container — is the native message. -/
theorem native_error_precedes_custom (dm : NativeMsgs) (n : String)
    (inp : FieldInput) (hnat : nativeErrorMessage dm inp ≠ "")
    (hcus : (firstRuleError inp.fieldType inp.value inp.rules).isSome) :
    fieldReport dm inp = some (nativeErrorMessage dm inp) ∧
    validateFields dm [(n, inp)] =
      ⟨false, [⟨nativeErrorMessage dm inp, n⟩]⟩ := by
  have hrep : fieldReport dm inp = some (nativeErrorMessage dm inp) := by
    unfold fieldReport fieldErrorsList
    rw [if_neg hnat]
    rfl
  refine ⟨hrep, ?_⟩
  unfold validateFields
  simp [hrep]

/-- C2 witness: a concrete field where the native `valueMissing` check and a
custom required rule (with message "CUSTOM") both fail; the native default
message is the one reported. -/
theorem native_error_precedes_custom_witness :
    fieldReport {} bothFailInput = some (nativeErrorMessage {} bothFailInput) ∧
    validateFields {} [("name", bothFailInput)] =
      ⟨false, [⟨nativeErrorMessage {} bothFailInput, "name"⟩]⟩ :=
  native_error_precedes_custom {} "name" bothFailInput (by decide) (by decide)

/-! ## C4: declaration order and short-circuit -/

/-- C4 (confirmed): if every rule before `r` passes and `r` fails with
message `m`, then the rule walk reports `m`, and the rules after `r` do not
influence the outcome (the result is the same for any suffix, mirroring the
loop's `break`). -/
theorem rules_short_circuit (ft : Option FType) (v : JSValue)
    (pre : List VRule) (r : VRule) (post post' : List VRule) (m : String)
    (hpre : ∀ r' ∈ pre, evalRule ft v r' = none)
    (hr : evalRule ft v r = some m) :
    firstRuleError ft v (pre ++ r :: post) = some m ∧
    firstRuleError ft v (pre ++ r :: post) = firstRuleError ft v (pre ++ r :: post') := by
  induction pre with
  | nil =>
    simp only [List.nil_append]
    unfold firstRuleError
    rw [hr]
    exact ⟨rfl, rfl⟩
  | cons p ps ih =>
    have hp : evalRule ft v p = none := hpre p (List.mem_cons_self p ps)
    have hps : ∀ r' ∈ ps, evalRule ft v r' = none :=
      fun r' h => hpre r' (List.mem_cons_of_mem p h)
    simp only [List.cons_append]
    unfold firstRuleError
    rw [hp]
    exact ih hps

/-- C4 witness: on value "ab" with rules `required` (passes), `min 5`
(fails, "M1"), `max 1` (would also fail, "M2"), the report is "M1" and is
unchanged when the trailing `max` rule is dropped. -/
theorem rules_short_circuit_witness :
    firstRuleError (some FType.str) (.str "ab")
        ([⟨.required, "", .str⟩] ++ ⟨.rmin 5, "M1", .str⟩ :: [⟨.rmax 1, "M2", .str⟩]) = some "M1" ∧
    firstRuleError (some FType.str) (.str "ab")
        ([⟨.required, "", .str⟩] ++ ⟨.rmin 5, "M1", .str⟩ :: [⟨.rmax 1, "M2", .str⟩]) =
      firstRuleError (some FType.str) (.str "ab")
        ([⟨.required, "", .str⟩] ++ ⟨.rmin 5, "M1", .str⟩ :: []) :=
  rules_short_circuit (some FType.str) (.str "ab")
    [⟨.required, "", .str⟩] ⟨.rmin 5, "M1", .str⟩ [⟨.rmax 1, "M2", .str⟩] [] "M1"
    (by intro r' h; rw [List.mem_singleton] at h; subst h; decide)
    (by decide)

/-! ## C5: when the required rule fails -/

/-- C5 (counterexample): the claim says that for number kind `required`
fails only on the empty-string sentinel and never on any other value; but
the code trims first, so the whitespace-only string " " (reachable as the
extracted value of e.g. a text control declared `number()`) also triggers
the required failure. -/
theorem number_required_fails_on_whitespace :
    evalRule (some FType.num) (.str " ") ⟨.required, "", FType.num⟩ =
      some "Поле обязательно для заполнения" ∧ (" " : String) ≠ "" := by
  decide

/-- C5 (amended): `required` fails exactly when — string kind: the value
trims to empty; number kind: the value is text that trims to empty
(including the empty-string sentinel), or text/number that is NaN after
parsing, in which case the generic number failure is reported; array kind:
the collection is empty.  It never fails on any other value. -/
theorem required_rule_characterization :
    (∀ (s m : String) (ft : FType),
      (validateStringRule ⟨.required, m, ft⟩ s).isSome ↔ jsTrim s = "") ∧
    (∀ (x : String ⊕ JSNum) (m : String) (ft : FType),
      (validateNumberRule ⟨.required, m, ft⟩ x).isSome ↔
        (match x with
         | Sum.inl s => jsTrim s = "" ∨ jsParseFloat s = JSNum.nan
         | Sum.inr n => n = JSNum.nan)) ∧
    (∀ (l : List String) (m : String) (ft : FType),
      (validateArrayRule ⟨.required, m, ft⟩ l).isSome ↔ l = []) := by
  refine ⟨?_, ?_, ?_⟩
  · intro s m ft
    unfold validateStringRule
    by_cases h : s = ""
    · subst h
      simp [jsTrim]
    · by_cases h2 : jsTrim s = "" <;> simp [h, h2]
  · intro x m ft
    cases x with
    | inl s =>
      by_cases h : jsTrim s = ""
      · simp [validateNumberRule, h]
      · cases hp : jsParseFloat s <;>
          simp [validateNumberRule, numRuleSwitch, jsIsNaN, h, hp]
    | inr n =>
      cases n <;> simp [validateNumberRule, numRuleSwitch, jsIsNaN]
  · intro l m ft
    unfold validateArrayRule
    cases l <;> simp

/-! ## C6: unparseable numeric text -/

/-- C6 (confirmed): for a number-kind field whose value is non-empty text
(after trim) that parses to NaN, *every* rule — whatever its type and
message — reports the generic "must be a number" message; the evaluator is a
total function, so no exception is possible. -/
theorem unparseable_number_generic_error (r : VRule) (s : String)
    (h1 : jsTrim s ≠ "") (h2 : jsParseFloat s = JSNum.nan) :
    validateNumberRule r (Sum.inl s) = some "Значение должно быть числом" := by
  have hred : validateNumberRule r (Sum.inl s) =
      if jsTrim s = "" then
        (match r.rtype with
         | RType.required => some (jsOr r.message "Поле обязательно для заполнения")
         | _ => none)
      else numRuleSwitch r (jsParseFloat s) false := rfl
  rw [hred, if_neg h1]
  unfold numRuleSwitch
  rw [h2]
  rfl

/-- C6 witness: the text "abc" under a `step(2)` rule. -/
theorem unparseable_number_generic_error_witness :
    validateNumberRule ⟨.rstep 2, "", FType.num⟩ (Sum.inl "abc") =
      some "Значение должно быть числом" :=
  unparseable_number_generic_error ⟨.rstep 2, "", FType.num⟩ "abc"
    (by decide) (by decide)

/-! ## C7: step uses exact modulo -/

/-- C7 (confirmed): the step rule on a numeric value fails exactly when the
exact truncated-remainder modulo (`jsModNum`, the rational model of JS `%`,
which is exact on doubles and applies no epsilon tolerance) is not zero —
including the NaN cases (NaN value, infinite value, or step 0), where
`x % step !== 0` also holds. -/
theorem step_rule_exact_modulo (st : ℚ) (m : String) (ft : FType) (v : JSNum) :
    (validateNumberRule ⟨.rstep st, m, ft⟩ (Sum.inr v)).isSome ↔
      jsModNum v st ≠ JSNum.fin 0 := by
  unfold validateNumberRule numRuleSwitch
  cases v with
  | nan => simp [jsIsNaN, jsModNum]
  | inf p => simp [jsIsNaN, jsModNum, jsNeqZero]
  | fin q =>
    by_cases hst : st = 0
    · simp [jsIsNaN, jsModNum, jsNeqZero, hst]
    · simp only [jsIsNaN, jsModNum, jsNeqZero, if_neg hst]
      by_cases hz : q - st * (jsTrunc (q / st) : ℚ) = 0 <;> simp [hz]

/-! ## C3: native violation order and message priority -/

/-- C3 (counterexample): the claim says the winning kind's message is always
resolved by custom-override → defaultMessages → data-attribute → fallback.
For the `custom-error` kind the code instead takes the control's own
`validationMessage` (else a generic fallback): with a per-field
`customError` override "OVERRIDE" configured and an empty
`validationMessage`, the produced message is the generic fallback, not the
override. -/
theorem customError_ignores_override :
    nativeErrorMessage {} ceOverrideInput = "Произошла ошибка валидации" ∧
    ceOverrideInput.customMessages.customError = "OVERRIDE" ∧
    ("Произошла ошибка валидации" : String) ≠ "OVERRIDE" := by
  decide

/-- C3 (amended): at most one native error is produced per field per call,
the flags are checked in the fixed order value-missing, type-mismatch,
pattern-mismatch, too-short, too-long, range-underflow, range-overflow,
step-mismatch, custom-error with the first set flag winning, and the
winning kind's message follows the four-stage priority for the eight
attribute-backed kinds, while `custom-error` resolves to the control's own
validation message, else a hardcoded fallback — i.e. the code-side chain
coincides with the spec-side priority-list scan `nativeMessageSpec`. -/
theorem nativeErrorMessage_priority (dm : NativeMsgs) (inp : FieldInput) :
    nativeErrorMessage dm inp = nativeMessageSpec dm inp ∧
    (∀ n, (validateFields dm [(n, inp)]).errors.length ≤ 1) := by
  constructor
  · unfold nativeErrorMessage nativeMessageSpec nativePriorityList resolveByPriority jsOr4
    simp only [firstSetFlag, jsOr_assoc]
  · intro n
    unfold validateFields
    cases hfr : fieldReport dm inp <;> simp [hfr]

/-! ## C8: the two throwing operations -/

/-- C8 (confirmed): constructing without a form container throws (the
`TypeError` from dereferencing the missing container), constructing with one
succeeds; `field(name)` for an unregistered name throws an `Error` whose
message embeds the field name, and succeeds for a registered name.  All
chain methods and `validate()` are total functions of the state in this
embedding (they are not `Except`-valued), matching "never throw". -/
theorem throwing_operations :
    formFactory none =
      Except.error "TypeError: Cannot read properties of undefined (reading 'querySelectorAll')" ∧
    (∀ fields, formFactory (some fields) = Except.ok fields) ∧
    (∀ (fields : List (String × FieldConfig)) (nm : String),
      ((fields.lookup nm).isSome → createFieldValidator fields nm = Except.ok ()) ∧
      (fields.lookup nm = none → createFieldValidator fields nm =
        Except.error ("Поле \"" ++ nm ++ "\" не найдено в форме"))) := by
  refine ⟨rfl, fun _ => rfl, fun fields nm => ⟨?_, ?_⟩⟩
  · intro h
    unfold createFieldValidator
    rw [if_pos h]
  · intro h
    unfold createFieldValidator
    rw [if_neg (by rw [h]; exact Bool.false_ne_true ∘ id)]

/-- C8 witness: on a registry with only field "name", `field("ghost")`
throws the descriptive error and `field("name")` succeeds. -/
theorem throwing_operations_witness :
    createFieldValidator [("name", {})] "ghost" =
      Except.error ("Поле \"ghost\" не найдено в форме") ∧
    createFieldValidator [("name", {})] "name" = Except.ok () :=
  ⟨(throwing_operations.2.2 [("name", {})] "ghost").2 rfl,
   (throwing_operations.2.2 [("name", {})] "name").1 rfl⟩

/-! ## C10: string-kind rules run on the empty string -/

/-- C10 (confirmed): for string kind the empty value is not skipped — the
fixed email pattern rejects `""`, so an `email()` rule with no `required()`
reports the email-format failure for an empty field (end-to-end through
`fieldReport`); by contrast a number-kind non-required rule on the empty
string returns nothing. -/
theorem empty_string_rules_still_evaluated :
    emailRegexTest "" = false ∧
    (∀ (m : String) (ft : FType),
      validateStringRule ⟨.remail, m, ft⟩ "" = some (jsOr m "Неверный формат email")) ∧
    fieldReport {} emptyEmailInput = some "Неверный формат email" ∧
    (∀ (v : ℚ) (m : String) (ft : FType),
      validateNumberRule ⟨.rmin v, m, ft⟩ (Sum.inl "") = none) := by
  refine ⟨rfl, fun m ft => rfl, by decide, fun v m ft => rfl⟩

/-! ## C9: idempotence of validate() -/

/-- C9 (counterexample): with a checked radio group whose error container is
an ancestor of the control (a configuration `findErrorContainer` itself
produces) and a single passing `required` rule, the first `validate()` call
passes and clears the container — but `textContent = ""` detaches the radio
from the form, so the second call extracts `""`, fails the required rule,
and returns a different result and different container text. -/
theorem validate_not_idempotent :
    (validate {} aliasDom aliasReg).1.isValid = true ∧
    (validate {} (validate {} aliasDom aliasReg).2 aliasReg).1.isValid = false ∧
    textOf (validate {} aliasDom aliasReg).2 1 = "" ∧
    textOf (validate {} (validate {} aliasDom aliasReg).2 aliasReg).2 1 =
      "Поле обязательно для заполнения" := by
  refine ⟨by decide, by decide, by decide, by decide⟩

theorem lookup_map_strip (l : List (Nat × ElemData)) (i : Nat) :
    (l.map fun p => (p.1, stripMut p.2)).lookup i = (l.lookup i).map stripMut := by
  induction l with
  | nil => rfl
  | cons p t ih =>
    cases h : i == p.1 <;> simp [List.lookup, h, ih]

theorem lookupElem_stripped (d : Dom) (i : Nat) :
    lookupElem (strippedDom d) i = (lookupElem d i).map stripMut :=
  lookup_map_strip d.elems i

theorem strippedDom_length (d : Dom) :
    (strippedDom d).elems.length = d.elems.length :=
  List.length_map _ _

@[simp] theorem stripMut_parent (ed : ElemData) : (stripMut ed).parent = ed.parent := rfl

@[simp] theorem stripMut_tagK (ed : ElemData) : (stripMut ed).tagK = ed.tagK := rfl

@[simp] theorem stripMut_itype (ed : ElemData) : (stripMut ed).itype = ed.itype := rfl

@[simp] theorem stripMut_ename (ed : ElemData) : (stripMut ed).ename = ed.ename := rfl

@[simp] theorem stripMut_value (ed : ElemData) : (stripMut ed).value = ed.value := rfl

@[simp] theorem stripMut_checked (ed : ElemData) : (stripMut ed).checked = ed.checked := rfl

@[simp] theorem stripMut_validity (ed : ElemData) : (stripMut ed).validity = ed.validity := rfl

@[simp] theorem stripMut_vmsg (ed : ElemData) :
    (stripMut ed).validationMessage = ed.validationMessage := rfl

theorem findFormAux_stripped (d : Dom) (fuel i : Nat) :
    findFormAux (strippedDom d) fuel i = findFormAux d fuel i := by
  induction fuel generalizing i with
  | zero => rfl
  | succ n ih =>
    unfold findFormAux
    rw [lookupElem_stripped]
    cases hl : lookupElem d i with
    | none => rfl
    | some ed =>
      simp only [Option.map_some', Option.some_bind]
      cases hp : ed.parent with
      | none => simp [stripMut_parent, hp]
      | some p =>
        simp only [stripMut_parent, hp]
        rw [lookupElem_stripped]
        cases hl2 : lookupElem d p with
        | none => rfl
        | some pd => simp [stripMut_tagK, ih]

theorem isDescendantAux_stripped (d : Dom) (fuel : Nat) : ∀ i anc,
    isDescendantAux (strippedDom d) fuel i anc = isDescendantAux d fuel i anc := by
  induction fuel with
  | zero => intro i anc; rfl
  | succ n ih =>
    intro i anc
    unfold isDescendantAux
    rw [lookupElem_stripped]
    cases hl : lookupElem d i with
    | none => rfl
    | some ed =>
      simp only [Option.map_some', Option.some_bind, stripMut_parent]
      cases ed.parent with
      | none => rfl
      | some p => simp [ih]

theorem isDescendant_stripped (d : Dom) (i anc : Nat) :
    isDescendant (strippedDom d) i anc = isDescendant d i anc := by
  unfold isDescendant
  rw [strippedDom_length, isDescendantAux_stripped]

theorem findForm_stripped (d : Dom) (i : Nat) :
    findForm (strippedDom d) i = findForm d i := by
  unfold findForm
  rw [strippedDom_length, findFormAux_stripped]

theorem getValidityState_stripped (d : Dom) (i : Nat) :
    getValidityState (strippedDom d) i = getValidityState d i := by
  unfold getValidityState
  rw [lookupElem_stripped]
  cases hl : lookupElem d i with
  | none => rfl
  | some ed => simp [isFormControlTag, stripMut_tagK, stripMut_validity]

@[simp] theorem stripPair_fst (p : Nat × ElemData) : (stripPair p).1 = p.1 := rfl

@[simp] theorem stripPair_snd (p : Nat × ElemData) : (stripPair p).2 = stripMut p.2 := rfl

theorem strippedDom_elems (d : Dom) : (strippedDom d).elems = d.elems.map stripPair := rfl

theorem radioHead_strip (l : List (Nat × ElemData)) :
    (match l.head?.map stripPair with
     | some sel => JSValue.str (jsOr sel.2.value "")
     | none => JSValue.str "") =
    (match l.head? with
     | some sel => JSValue.str (jsOr sel.2.value "")
     | none => JSValue.str "") := by
  cases l.head? <;> rfl

theorem getFieldValue_stripped (d : Dom) (i : Nat) :
    getFieldValue (strippedDom d) i = getFieldValue d i := by
  unfold getFieldValue
  rw [lookupElem_stripped]
  cases hl : lookupElem d i with
  | none => rfl
  | some ed =>
    simp only [Option.map_some', stripMut_tagK, stripMut_itype, stripMut_ename,
      stripMut_value, stripMut_checked, findForm_stripped, isDescendant_stripped,
      strippedDom_elems, List.filter_map, List.map_map, Function.comp_def,
      stripPair_fst, stripPair_snd, List.head?_map, radioHead_strip]

theorem lookup_filter_ne (attrs : List (String × String)) (k : String)
    (hk : k ≠ "aria-invalid") :
    (attrs.filter fun kv => kv.1 ≠ "aria-invalid").lookup k = attrs.lookup k := by
  induction attrs with
  | nil => rfl
  | cons a t ih =>
    simp only [List.filter_cons]
    simp only [decide_not] at ih
    by_cases ha : a.1 = "aria-invalid"
    · have hka : (k == "aria-invalid") = false := beq_eq_false_iff_ne.mpr hk
      simp [ha, List.lookup, hka, ih]
    · cases hka : k == a.1 <;> simp [List.lookup, ha, hka, ih]

theorem getAttr_filter (attrs : List (String × String)) (k : String)
    (hk : k ≠ "aria-invalid") :
    getAttr (attrs.filter fun kv => kv.1 ≠ "aria-invalid") k = getAttr attrs k := by
  unfold getAttr
  rw [lookup_filter_ne attrs k hk]

theorem nativeErrorMessage_filter_attrs (dm : NativeMsgs) (inp : FieldInput) :
    nativeErrorMessage dm
      { inp with attrs := inp.attrs.filter fun kv => kv.1 ≠ "aria-invalid" } =
    nativeErrorMessage dm inp := by
  unfold nativeErrorMessage
  dsimp only
  rw [getAttr_filter inp.attrs "data-error-value-missing" (by decide),
    getAttr_filter inp.attrs "data-error-type-mismatch" (by decide),
    getAttr_filter inp.attrs "data-error-pattern-mismatch" (by decide),
    getAttr_filter inp.attrs "data-error-too-short" (by decide),
    getAttr_filter inp.attrs "data-error-too-long" (by decide),
    getAttr_filter inp.attrs "data-error-range-underflow" (by decide),
    getAttr_filter inp.attrs "data-error-range-overflow" (by decide),
    getAttr_filter inp.attrs "data-error-step-mismatch" (by decide)]

theorem fieldReport_filter_attrs (dm : NativeMsgs) (inp : FieldInput) :
    fieldReport dm
      { inp with attrs := inp.attrs.filter fun kv => kv.1 ≠ "aria-invalid" } =
    fieldReport dm inp := by
  unfold fieldReport fieldErrorsList
  rw [nativeErrorMessage_filter_attrs]

theorem readFieldInput_stripped (d : Dom) (cfg : FieldConfig) :
    readFieldInput (strippedDom d) cfg =
    { readFieldInput d cfg with
      attrs := (readFieldInput d cfg).attrs.filter fun kv => kv.1 ≠ "aria-invalid" } := by
  unfold readFieldInput
  rw [lookupElem_stripped, getValidityState_stripped, getFieldValue_stripped]
  cases lookupElem d cfg.element with
  | none => rfl
  | some ed => rfl

theorem fieldReport_dom_eq (dm : NativeMsgs) (cfg : FieldConfig) (d d' : Dom)
    (h : strippedDom d = strippedDom d') :
    fieldReport dm (readFieldInput d cfg) = fieldReport dm (readFieldInput d' cfg) := by
  have h1 := readFieldInput_stripped d cfg
  have h2 := readFieldInput_stripped d' cfg
  calc fieldReport dm (readFieldInput d cfg)
      = fieldReport dm (readFieldInput (strippedDom d) cfg) := by
        rw [h1, fieldReport_filter_attrs]
    _ = fieldReport dm (readFieldInput (strippedDom d') cfg) := by rw [h]
    _ = fieldReport dm (readFieldInput d' cfg) := by
        rw [h2, fieldReport_filter_attrs]

theorem lookup_map_snd (l : List (Nat × ElemData)) (g : ElemData → ElemData) (j : Nat) :
    (l.map fun p => (p.1, g p.2)).lookup j = (l.lookup j).map g := by
  induction l with
  | nil => rfl
  | cons p t ih =>
    cases h : j == p.1 <;> simp [List.lookup, h, ih]

theorem lookup_update_list (l : List (Nat × ElemData)) (i j : Nat) (f : ElemData → ElemData) :
    (l.map fun p => if p.1 = i then (p.1, f p.2) else p).lookup j =
    if j = i then (l.lookup i).map f else l.lookup j := by
  induction l with
  | nil => simp [List.lookup]
  | cons p t ih =>
    simp only [List.map_cons]
    by_cases hp : p.1 = i
    · rw [if_pos hp]
      by_cases hj : j = i
      · have hb : (j == p.1) = true := beq_iff_eq.mpr (hj.trans hp.symm)
        have hb2 : (i == p.1) = true := beq_iff_eq.mpr hp.symm
        simp [List.lookup, hb, hj, hb2]
      · have hb : (j == p.1) = false := beq_eq_false_iff_ne.mpr (fun h => hj (h.trans hp))
        simp [List.lookup, hb, hj, ih]
    · rw [if_neg hp]
      by_cases hj : j = p.1
      · have hb : (j == p.1) = true := beq_iff_eq.mpr hj
        have hji : ¬j = i := fun h => hp (hj.symm.trans h)
        simp [List.lookup, hb, hji]
      · have hb : (j == p.1) = false := beq_eq_false_iff_ne.mpr hj
        by_cases hji : j = i
        · have hb2 : (i == p.1) = false :=
            beq_eq_false_iff_ne.mpr (fun h => hj (hji.trans h))
          rw [if_pos hji] at ih ⊢
          simp [List.lookup, hb, hb2, ih]
        · rw [if_neg hji] at ih ⊢
          simp [List.lookup, hb, ih]

theorem lookupElem_updateElem (d : Dom) (i : Nat) (f : ElemData → ElemData) (j : Nat) :
    lookupElem (updateElem d i f) j =
    if j = i then (lookupElem d i).map f else lookupElem d j :=
  lookup_update_list d.elems i j f

theorem strippedDom_updateElem (d : Dom) (i : Nat) (f : ElemData → ElemData)
    (hf : ∀ ed, stripMut (f ed) = stripMut ed) :
    strippedDom (updateElem d i f) = strippedDom d := by
  unfold strippedDom updateElem
  congr 1
  simp only [List.map_map]
  apply List.map_congr_left
  intro p _
  by_cases hp : p.1 = i <;> simp [Function.comp_def, stripPair, hp, hf]

theorem filter_replaceAttr (a : List (String × String)) (k : String) (v : String) :
    ((a.map fun p => if p.1 = k then (k, v) else p).filter fun kv => kv.1 ≠ k) =
    a.filter fun kv => kv.1 ≠ k := by
  induction a with
  | nil => rfl
  | cons p t ih =>
    simp only [decide_not] at ih
    by_cases hp : p.1 = k
    · simp [List.filter_cons, hp, ih]
    · simp [List.filter_cons, hp, ih]

theorem filter_setAttrList (a : List (String × String)) (k v : String) :
    ((setAttrList a k v).filter fun kv => kv.1 ≠ k) = a.filter fun kv => kv.1 ≠ k := by
  unfold setAttrList
  by_cases h : a.any (·.1 = k)
  · rw [if_pos h]
    exact filter_replaceAttr a k v
  · rw [if_neg h]
    simp [List.filter_append]

theorem filter_attrs_idem (a : List (String × String)) (k : String) :
    ((a.filter fun kv => kv.1 ≠ k).filter fun kv => kv.1 ≠ k) =
    a.filter fun kv => kv.1 ≠ k := by
  induction a with
  | nil => rfl
  | cons p t ih =>
    by_cases hp : p.1 = k <;> simp [List.filter_cons, hp, ih]

theorem strippedDom_setAttrAria (d : Dom) (i : Nat) (v : String) :
    strippedDom (setAttrDom d i "aria-invalid" v) = strippedDom d := by
  unfold setAttrDom
  apply strippedDom_updateElem
  intro ed
  unfold stripMut
  simp only
  rw [filter_setAttrList]

theorem strippedDom_removeAttrAria (d : Dom) (i : Nat) :
    strippedDom (removeAttrDom d i "aria-invalid") = strippedDom d := by
  unfold removeAttrDom
  apply strippedDom_updateElem
  intro ed
  unfold stripMut
  simp only
  rw [filter_attrs_idem]

theorem strippedDom_setStyleShown (d : Dom) (c : Nat) :
    strippedDom (setStyleShown d c) = strippedDom d := by
  unfold setStyleShown
  exact strippedDom_updateElem d c _ (fun ed => rfl)

theorem strippedDom_setStyleHidden (d : Dom) (c : Nat) :
    strippedDom (setStyleHidden d c) = strippedDom d := by
  unfold setStyleHidden
  exact strippedDom_updateElem d c _ (fun ed => rfl)

theorem childlessIn_updateElem (d : Dom) (i : Nat) (f : ElemData → ElemData)
    (hpar : ∀ ed, (f ed).parent = ed.parent) (c' : Nat)
    (hc : childlessIn d c') : childlessIn (updateElem d i f) c' := by
  intro p hp
  unfold updateElem at hp
  rcases List.mem_map.mp hp with ⟨q, hq, hqe⟩
  subst hqe
  by_cases h : q.1 = i
  · rw [if_pos h]
    show (f q.2).parent ≠ some c'
    rw [hpar]
    exact hc q hq
  · rw [if_neg h]
    exact hc q hq

theorem childlessIn_setTextContent (d : Dom) (c : Nat) (s : String) (c' : Nat)
    (hc : childlessIn d c') : childlessIn (setTextContent d c s) c' := by
  intro p hp
  unfold setTextContent at hp
  rcases List.mem_map.mp hp with ⟨q, hq, hqe⟩
  subst hqe
  have hq' : q.2.parent ≠ some c' :=
    childlessIn_updateElem d c (fun ed => { ed with text := s })
      (fun ed => rfl) c' hc q hq
  by_cases h : q.2.parent = some c
  · simp [detachFrom, h]
  · simpa [detachFrom, h] using hq'

theorem strippedDom_setTextContent (d : Dom) (c : Nat) (s : String)
    (hc : childlessIn d c) :
    strippedDom (setTextContent d c s) = strippedDom d := by
  unfold setTextContent
  have hc1 : childlessIn (updateElem d c fun ed => { ed with text := s }) c :=
    childlessIn_updateElem d c (fun ed => { ed with text := s }) (fun ed => rfl) c hc
  have hmap : ((updateElem d c fun ed => { ed with text := s }).elems.map fun p =>
      (p.1, detachFrom c p.2)) =
      (updateElem d c fun ed => { ed with text := s }).elems := by
    have := List.map_congr_left (l := (updateElem d c fun ed => { ed with text := s }).elems)
      (f := fun p => (p.1, detachFrom c p.2)) (g := id) ?_
    · simpa using this
    · intro p hp
      have : p.2.parent ≠ some c := hc1 p hp
      simp [detachFrom, this]
  show strippedDom ⟨(updateElem d c fun ed => { ed with text := s }).elems.map fun p =>
      (p.1, detachFrom c p.2)⟩ = strippedDom d
  rw [hmap]
  exact strippedDom_updateElem d c (fun ed => { ed with text := s }) (fun ed => rfl)

theorem textOf_updateElem (d : Dom) (i : Nat) (f : ElemData → ElemData) (j : Nat)
    (hf : ∀ ed, (f ed).text = ed.text) :
    textOf (updateElem d i f) j = textOf d j := by
  unfold textOf
  rw [lookupElem_updateElem]
  by_cases hj : j = i
  · rw [if_pos hj, hj]
    cases lookupElem d i <;> simp [hf]
  · rw [if_neg hj]

theorem lookupElem_setTextContent (d : Dom) (c : Nat) (s : String) (j : Nat) :
    lookupElem (setTextContent d c s) j =
    ((if j = c then (lookupElem d c).map (fun ed => { ed with text := s })
      else lookupElem d j).map (detachFrom c)) := by
  unfold setTextContent lookupElem
  dsimp only
  rw [lookup_map_snd]
  have h := lookupElem_updateElem d c (fun ed => { ed with text := s }) j
  unfold lookupElem at h
  rw [h]

theorem textOf_setTextContent (d : Dom) (c : Nat) (s : String) (j : Nat) :
    textOf (setTextContent d c s) j =
    (if j = c then (match lookupElem d c with | some _ => s | none => "")
     else textOf d j) := by
  unfold textOf
  rw [lookupElem_setTextContent]
  by_cases hj : j = c
  · rw [if_pos hj, if_pos hj]
    cases lookupElem d c with
    | none => rfl
    | some ed =>
      simp only [Option.map_some']
      by_cases hp : ed.parent = some c <;> simp [detachFrom, hp]
  · rw [if_neg hj, if_neg hj]
    cases lookupElem d j with
    | none => rfl
    | some ed =>
      simp only [Option.map_some']
      by_cases hp : ed.parent = some c <;> simp [detachFrom, hp]

theorem textOf_setStyleShown (d : Dom) (c j : Nat) :
    textOf (setStyleShown d c) j = textOf d j :=
  textOf_updateElem d c _ j (fun ed => rfl)

theorem textOf_setStyleHidden (d : Dom) (c j : Nat) :
    textOf (setStyleHidden d c) j = textOf d j :=
  textOf_updateElem d c _ j (fun ed => rfl)

theorem textOf_setAttrDom (d : Dom) (i : Nat) (k v : String) (j : Nat) :
    textOf (setAttrDom d i k v) j = textOf d j :=
  textOf_updateElem d i _ j (fun ed => rfl)

theorem textOf_removeAttrDom (d : Dom) (i : Nat) (k : String) (j : Nat) :
    textOf (removeAttrDom d i k) j = textOf d j :=
  textOf_updateElem d i _ j (fun ed => rfl)

theorem strippedDom_errorWrites (d : Dom) (cfg : FieldConfig) (m : String)
    (hcl : ∀ c, cfg.errorContainer = some c → childlessIn d c) :
    strippedDom (errorWrites d cfg m) = strippedDom d := by
  unfold errorWrites
  cases hec : cfg.errorContainer with
  | none => rfl
  | some c =>
    rw [strippedDom_setStyleShown, strippedDom_setTextContent d c m (hcl c hec)]

theorem strippedDom_clearWrites (d : Dom) (cfg : FieldConfig)
    (hcl : ∀ c, cfg.errorContainer = some c → childlessIn d c) :
    strippedDom (clearWrites d cfg) = strippedDom d := by
  unfold clearWrites
  cases hec : cfg.errorContainer with
  | none => rfl
  | some c =>
    rw [strippedDom_setStyleHidden, strippedDom_setTextContent d c "" (hcl c hec)]

theorem strippedDom_validateFieldDom (dm : NativeMsgs) (d : Dom) (cfg : FieldConfig)
    (hcl : ∀ c, cfg.errorContainer = some c → childlessIn d c) :
    strippedDom (validateFieldDom dm d cfg).2 = strippedDom d := by
  unfold validateFieldDom
  cases fieldReport dm (readFieldInput d cfg) with
  | some m =>
    simp only
    rw [strippedDom_setAttrAria, strippedDom_errorWrites d cfg m hcl]
  | none =>
    simp only
    rw [strippedDom_removeAttrAria, strippedDom_clearWrites d cfg hcl]

theorem childlessIn_errorWrites (d : Dom) (cfg : FieldConfig) (m : String) (c' : Nat)
    (hc : childlessIn d c') : childlessIn (errorWrites d cfg m) c' := by
  unfold errorWrites
  cases cfg.errorContainer with
  | none => exact hc
  | some c =>
    dsimp only
    unfold setStyleShown
    apply childlessIn_updateElem
    · intro ed
      rfl
    · exact childlessIn_setTextContent d c m c' hc

theorem childlessIn_clearWrites (d : Dom) (cfg : FieldConfig) (c' : Nat)
    (hc : childlessIn d c') : childlessIn (clearWrites d cfg) c' := by
  unfold clearWrites
  cases cfg.errorContainer with
  | none => exact hc
  | some c =>
    dsimp only
    unfold setStyleHidden
    apply childlessIn_updateElem
    · intro ed
      rfl
    · exact childlessIn_setTextContent d c "" c' hc

theorem childlessIn_validateFieldDom (dm : NativeMsgs) (d : Dom) (cfg : FieldConfig)
    (c' : Nat) (hc : childlessIn d c') :
    childlessIn (validateFieldDom dm d cfg).2 c' := by
  unfold validateFieldDom
  cases fieldReport dm (readFieldInput d cfg) with
  | some m =>
    dsimp only
    unfold setAttrDom
    apply childlessIn_updateElem
    · intro ed
      rfl
    · exact childlessIn_errorWrites d cfg m c' hc
  | none =>
    dsimp only
    unfold removeAttrDom
    apply childlessIn_updateElem
    · intro ed
      rfl
    · exact childlessIn_clearWrites d cfg c' hc

theorem textOf_setTextContent_pair (d d' : Dom) (c : Nat) (s : String) (j : Nat)
    (h : strippedDom d = strippedDom d') :
    textOf (setTextContent d c s) j = textOf (setTextContent d' c s) j ∨
    (textOf (setTextContent d c s) j = textOf d j ∧
     textOf (setTextContent d' c s) j = textOf d' j) := by
  rw [textOf_setTextContent, textOf_setTextContent]
  by_cases hj : j = c
  · rw [if_pos hj, if_pos hj]
    have hl : (lookupElem d c).map stripMut = (lookupElem d' c).map stripMut := by
      rw [← lookupElem_stripped, ← lookupElem_stripped, h]
    cases h1 : lookupElem d c with
    | some e1 =>
      cases h2 : lookupElem d' c with
      | some e2 => left; rfl
      | none =>
        rw [h1, h2] at hl
        simp at hl
    | none =>
      cases h2 : lookupElem d' c with
      | some e2 =>
        rw [h1, h2] at hl
        simp at hl
      | none =>
        right
        subst hj
        unfold textOf
        rw [h1, h2]
        exact ⟨rfl, rfl⟩
  · rw [if_neg hj, if_neg hj]
    right
    exact ⟨rfl, rfl⟩

theorem validateFieldDom_fst_eq (dm : NativeMsgs) (cfg : FieldConfig) (d d' : Dom)
    (h : strippedDom d = strippedDom d') :
    (validateFieldDom dm d cfg).1 = (validateFieldDom dm d' cfg).1 := by
  unfold validateFieldDom
  rw [fieldReport_dom_eq dm cfg d d' h]
  cases fieldReport dm (readFieldInput d' cfg) <;> rfl

theorem textOf_validateFieldDom_pair (dm : NativeMsgs) (cfg : FieldConfig) (d d' : Dom)
    (h : strippedDom d = strippedDom d') (j : Nat) :
    textOf (validateFieldDom dm d cfg).2 j = textOf (validateFieldDom dm d' cfg).2 j ∨
    (textOf (validateFieldDom dm d cfg).2 j = textOf d j ∧
     textOf (validateFieldDom dm d' cfg).2 j = textOf d' j) := by
  have hrep := fieldReport_dom_eq dm cfg d d' h
  unfold validateFieldDom
  rw [← hrep]
  cases hr : fieldReport dm (readFieldInput d cfg) with
  | some m =>
    dsimp only
    rw [textOf_setAttrDom, textOf_setAttrDom]
    unfold errorWrites
    cases hec : cfg.errorContainer with
    | none => right; exact ⟨rfl, rfl⟩
    | some c =>
      dsimp only
      rw [textOf_setStyleShown, textOf_setStyleShown]
      exact textOf_setTextContent_pair d d' c m j h
  | none =>
    dsimp only
    rw [textOf_removeAttrDom, textOf_removeAttrDom]
    unfold clearWrites
    cases hec : cfg.errorContainer with
    | none => right; exact ⟨rfl, rfl⟩
    | some c =>
      dsimp only
      rw [textOf_setStyleHidden, textOf_setStyleHidden]
      exact textOf_setTextContent_pair d d' c "" j h

theorem validateGo_strip (dm : NativeMsgs) (reg : List (String × FieldConfig)) :
    ∀ d, containersChildless d reg →
    strippedDom (validateGo dm d reg).2 = strippedDom d ∧
    (∀ c', childlessIn d c' → childlessIn (validateGo dm d reg).2 c') := by
  induction reg with
  | nil => exact fun d _ => ⟨rfl, fun c' hc => hc⟩
  | cons e rest ih =>
    intro d h
    obtain ⟨n, cfg⟩ := e
    unfold validateGo
    dsimp only
    have hcl : ∀ c, cfg.errorContainer = some c → childlessIn d c :=
      fun c hc => h (n, cfg) (List.mem_cons_self _ _) c hc
    have hstep : strippedDom (validateFieldDom dm d cfg).2 = strippedDom d :=
      strippedDom_validateFieldDom dm d cfg hcl
    have hchild : ∀ c', childlessIn d c' → childlessIn (validateFieldDom dm d cfg).2 c' :=
      fun c' hc => childlessIn_validateFieldDom dm d cfg c' hc
    have hrest : containersChildless (validateFieldDom dm d cfg).2 rest := by
      intro e' he c hc
      exact hchild c (h e' (List.mem_cons_of_mem _ he) c hc)
    obtain ⟨h1, h2⟩ := ih (validateFieldDom dm d cfg).2 hrest
    exact ⟨h1.trans hstep, fun c' hc => h2 c' (hchild c' hc)⟩

theorem validateGo_pair (dm : NativeMsgs) (reg : List (String × FieldConfig)) :
    ∀ d d', strippedDom d = strippedDom d' →
    containersChildless d reg → containersChildless d' reg →
    (validateGo dm d reg).1 = (validateGo dm d' reg).1 ∧
    (∀ j, textOf (validateGo dm d reg).2 j = textOf (validateGo dm d' reg).2 j ∨
      (textOf (validateGo dm d reg).2 j = textOf d j ∧
       textOf (validateGo dm d' reg).2 j = textOf d' j)) := by
  induction reg with
  | nil => exact fun d d' h _ _ => ⟨rfl, fun j => Or.inr ⟨rfl, rfl⟩⟩
  | cons e rest ih =>
    intro d d' h hC hC'
    obtain ⟨n, cfg⟩ := e
    unfold validateGo
    dsimp only
    have hcl : ∀ c, cfg.errorContainer = some c → childlessIn d c :=
      fun c hc => hC (n, cfg) (List.mem_cons_self _ _) c hc
    have hcl' : ∀ c, cfg.errorContainer = some c → childlessIn d' c :=
      fun c hc => hC' (n, cfg) (List.mem_cons_self _ _) c hc
    have hfst := validateFieldDom_fst_eq dm cfg d d' h
    have hstripA : strippedDom (validateFieldDom dm d cfg).2 = strippedDom d :=
      strippedDom_validateFieldDom dm d cfg hcl
    have hstripA' : strippedDom (validateFieldDom dm d' cfg).2 = strippedDom d' :=
      strippedDom_validateFieldDom dm d' cfg hcl'
    have hA : strippedDom (validateFieldDom dm d cfg).2 =
        strippedDom (validateFieldDom dm d' cfg).2 := by
      rw [hstripA, hstripA', h]
    have hCA : containersChildless (validateFieldDom dm d cfg).2 rest := by
      intro e' he c hc
      exact childlessIn_validateFieldDom dm d cfg c
        (hC e' (List.mem_cons_of_mem _ he) c hc)
    have hCA' : containersChildless (validateFieldDom dm d' cfg).2 rest := by
      intro e' he c hc
      exact childlessIn_validateFieldDom dm d' cfg c
        (hC' e' (List.mem_cons_of_mem _ he) c hc)
    obtain ⟨ih1, ih2⟩ := ih (validateFieldDom dm d cfg).2 (validateFieldDom dm d' cfg).2
      hA hCA hCA'
    constructor
    · rw [hfst, ih1]
    · intro j
      rcases ih2 j with heq | ⟨ha, hb⟩
      · left
        exact heq
      · rcases textOf_validateFieldDom_pair dm cfg d d' h j with hstep | ⟨hsa, hsb⟩
        · left
          rw [ha, hb, hstep]
        · right
          exact ⟨ha.trans hsa, hb.trans hsb⟩

/-- C9 (amended): `validate()` is idempotent provided every configured error
container currently has no child elements (true of the conventional sibling
alert containers): a second call with no intervening change returns the same
result and leaves every element's text content unchanged.  (Without that
proviso the `textContent` assignment of the first call detaches the
container's children and the second call can differ — see the
counterexample.) -/
theorem validate_idempotent_childless_containers (dm : NativeMsgs) (d : Dom)
    (reg : List (String × FieldConfig)) (h : containersChildless d reg) :
    (validate dm (validate dm d reg).2 reg).1 = (validate dm d reg).1 ∧
    ∀ j, textOf (validate dm (validate dm d reg).2 reg).2 j =
      textOf (validate dm d reg).2 j := by
  obtain ⟨hs, hc⟩ := validateGo_strip dm reg d h
  have hC1 : containersChildless (validateGo dm d reg).2 reg := by
    intro e he c hcc
    exact hc c (h e he c hcc)
  obtain ⟨h1, h2⟩ := validateGo_pair dm reg (validateGo dm d reg).2 d hs hC1 h
  constructor
  · unfold validate
    dsimp only
    rw [h1]
  · intro j
    unfold validate
    dsimp only
    rcases h2 j with heq | ⟨ha, _⟩
    · exact heq
    · exact ha

/-- C9 witness: a concrete form following the sibling-alert convention (the
error container has no children); two validate() passes agree, applied
through the idempotence theorem with its childless-containers hypothesis
discharged concretely. -/
theorem validate_idempotent_witness :
    (validate {} (validate {} siblingDom siblingReg).2 siblingReg).1 =
      (validate {} siblingDom siblingReg).1 ∧
    ∀ j, textOf (validate {} (validate {} siblingDom siblingReg).2 siblingReg).2 j =
      textOf (validate {} siblingDom siblingReg).2 j :=
  validate_idempotent_childless_containers {} siblingDom siblingReg (by
    intro e he c hc
    unfold siblingReg at he
    rw [List.mem_singleton] at he
    subst he
    dsimp only [siblingReg] at hc
    injection hc with h
    subst h
    unfold childlessIn siblingDom
    decide)
